import Mathlib

/-!
Shallow embedding of the record-store library (src/src/lib.rs) and proofs of
its specified properties.

The Rust code stores records by value in a `DB` and hands out views holding
references (`&T` in `DBView`, `&mut T` in `DBViewMut`) into that storage.  The
embedding models a reference by the record it points at, so a view is a list
of record values; predicates are Boolean-valued functions on records, exactly
as in the source (`Fn(&T) -> bool`).  Methods taking `&self` or `&mut self`
are additionally embedded as explicit state-passing functions returning the
receiver state after the call together with the result, so that frame
properties (the receiver is not mutated) can be stated; the post-state is read
off the method body, which never writes to `self.data` or `self.entries`.
Consumption of a `DBViewMut` by `select_where_mut` (Rust move semantics) is
modelled by the function taking the view by value and returning no receiver
post-state.
-/

/-- Embedding of `DB<T>`: owns a sequence of records. -/
structure DB (T : Type) where
  data : List T
  deriving Repr

/-- Embedding of `DBView<'a, T>`: an immutably borrowed subset of a DB, each
entry modelled by the record value its `&T` reference points at. -/
structure DBView (T : Type) where
  entries : List T
  deriving Repr

/-- Embedding of `DBViewMut<'a, T>`: a mutably borrowed subset of a DB, each
entry modelled by the record value its `&mut T` reference points at. -/
structure DBViewMut (T : Type) where
  entries : List T
  deriving Repr

/-- Embedding of `DB::new`: takes ownership of the given sequence as-is. -/
def DB.new {T : Type} (data : List T) : DB T :=
  ⟨data⟩

/-- Embedding of `DB::select_where`: the body
`self.data.iter().filter(|t| predicate(t)).collect()` is a single stable
filtering pass over the owned records. -/
def DB.select_where {T : Type} (db : DB T) (p : T → Bool) : DBView T :=
  ⟨db.data.filter p⟩

/-- Embedding of `DB::select_where_mut`: the body
`self.data.iter_mut().filter(|t| predicate(t)).collect()` is the same stable
filtering pass, collecting exclusive references. -/
def DB.select_where_mut {T : Type} (db : DB T) (p : T → Bool) : DBViewMut T :=
  ⟨db.data.filter p⟩

/-- Embedding of `DB::as_view`: the body is `self.select_where(|_| true)`. -/
def DB.as_view {T : Type} (db : DB T) : DBView T :=
  db.select_where (fun _ => true)

/-- Embedding of `DB::as_view_mut`: the body is
`self.select_where_mut(|_| true)`. -/
def DB.as_view_mut {T : Type} (db : DB T) : DBViewMut T :=
  db.select_where_mut (fun _ => true)

/-- Embedding of `DB::len`: `self.data.len()`. -/
def DB.len {T : Type} (db : DB T) : Nat :=
  db.data.length

/-- Embedding of `DBView::select_where`: the body
`self.entries.iter().map(|t| *t).filter(|t| predicate(t)).collect()` copies
the shared references and keeps those whose target satisfies the predicate,
in existing order. -/
def DBView.select_where {T : Type} (v : DBView T) (p : T → Bool) : DBView T :=
  ⟨v.entries.filter p⟩

/-- Embedding of `DBView::len`: `self.entries.len()`. -/
def DBView.len {T : Type} (v : DBView T) : Nat :=
  v.entries.length

/-- Embedding of `DBViewMut::select_where_mut`: the receiver is taken by value
(Rust `self`, a consuming move); the body
`self.entries.into_iter().filter(|t| predicate(t)).collect()` transfers the
surviving exclusive references, in existing order, into the new view. -/
def DBViewMut.select_where_mut {T : Type} (m : DBViewMut T) (p : T → Bool) :
    DBViewMut T :=
  ⟨m.entries.filter p⟩

/-- Embedding of `DBViewMut::len`: `self.entries.len()`. -/
def DBViewMut.len {T : Type} (m : DBViewMut T) : Nat :=
  m.entries.length

/-- Embedding of the free function `filter_one`: its body is
`view.select_where(predicate)`. -/
def filter_one {T : Type} (view : DBView T) (p : T → Bool) : DBView T :=
  view.select_where p

/-- Embedding of the free function `filter_two`: its body is the pair
`(view_a.select_where(&predicate), view_b.select_where(&predicate))`. -/
def filter_two {T : Type} (view_a view_b : DBView T) (p : T → Bool) :
    DBView T × DBView T :=
  (view_a.select_where p, view_b.select_where p)

/-- State-passing embedding of a call `db.select_where(p)`: the method takes
`&self` and its body never assigns to `self.data`, so the receiver state
after the call is the unchanged `db`; the second component is the returned
view. -/
def DB.select_where_call {T : Type} (db : DB T) (p : T → Bool) :
    DB T × DBView T :=
  (db, db.select_where p)

/-- State-passing embedding of a call `db.select_where_mut(p)`: the method
takes `&mut self` but its body only reads the records (it collects `&mut T`
references without writing through them), so the receiver state after the
call is the unchanged `db`. -/
def DB.select_where_mut_call {T : Type} (db : DB T) (p : T → Bool) :
    DB T × DBViewMut T :=
  (db, db.select_where_mut p)

/-- State-passing embedding of a call `v.select_where(p)`: the method takes
`&self` and its body never assigns to `self.entries`, so the receiver state
after the call is the unchanged `v`. -/
def DBView.select_where_call {T : Type} (v : DBView T) (p : T → Bool) :
    DBView T × DBView T :=
  (v, v.select_where p)

/-- Filtering twice is filtering by the conjunction, keeping first-pass
order. -/
theorem filter_filter_eq_filter_and {T : Type} (p q : T → Bool) :
    ∀ l : List T, (l.filter p).filter q = l.filter (fun x => p x && q x) := by
  intro l
  induction l with
  | nil => rfl
  | cons x xs ih =>
      cases hp : p x <;> cases hq : q x <;>
        simp [List.filter, hp, hq, ih]

/-- Filtering by the always-true predicate keeps every element. -/
theorem filter_true_eq_self {T : Type} :
    ∀ l : List T, l.filter (fun _ => true) = l := by
  intro l
  induction l with
  | nil => rfl
  | cons x xs ih => simp [List.filter, ih]

/-- C1: every filtering operation returns exactly the subsequence of its
input, in the input's original order, whose elements satisfy the predicate:
`DB::select_where` on the store's records, `DBView::select_where` and
`DBViewMut::select_where_mut` on the view's entries, and the free functions
`filter_one` and `filter_two` likewise; each result is a sublist (hence
order-preserving) of its input consisting of elements satisfying the
predicate. -/
theorem C1_order_preservation {T : Type} (S : DB T) (v : DBView T)
    (m : DBViewMut T) (a b : DBView T) (p : T → Bool) :
    (S.select_where p).entries = S.data.filter p
    ∧ (S.select_where p).entries.Sublist S.data
    ∧ (∀ x ∈ (S.select_where p).entries, p x = true)
    ∧ (v.select_where p).entries = v.entries.filter p
    ∧ (v.select_where p).entries.Sublist v.entries
    ∧ (m.select_where_mut p).entries = m.entries.filter p
    ∧ (m.select_where_mut p).entries.Sublist m.entries
    ∧ (filter_one v p).entries = v.entries.filter p
    ∧ (filter_two a b p).1.entries = a.entries.filter p
    ∧ (filter_two a b p).2.entries = b.entries.filter p := by
  refine ⟨rfl, List.filter_sublist _, ?_, rfl, List.filter_sublist _, rfl,
    List.filter_sublist _, rfl, rfl, rfl⟩
  intro x hx
  exact List.of_mem_filter hx

/-- C2: the length of `S.select_where(p)` equals the number of records of `S`
satisfying `p`. -/
theorem C2_select_where_len_eq_count {T : Type} (S : DB T) (p : T → Bool) :
    (S.select_where p).len = S.data.countP p := by
  simp [DB.select_where, DBView.len, List.countP_eq_length_filter]

/-- C3: narrowing composition: filtering a view by `p` and then by `q` yields
the same selected sequence as filtering once by the conjunction of `p` and
`q`. -/
theorem C3_narrowing_composition {T : Type} (v : DBView T) (p q : T → Bool) :
    ((v.select_where p).select_where q).entries
      = (v.select_where (fun x => p x && q x)).entries := by
  show (v.entries.filter p).filter q = v.entries.filter (fun x => p x && q x)
  exact filter_filter_eq_filter_and p q v.entries

/-- C4: `DBViewMut::select_where_mut` takes the receiver by value (Rust move
semantics make the original handle unusable afterwards) and returns a new
mutable view holding exactly those of the receiver's exclusive references
whose targets satisfy the predicate, in the receiver's existing order: the
result is the filtered entry sequence and a sublist of the receiver's
entries, so no new records are added. -/
theorem C4_select_where_mut_consumes_and_filters {T : Type} (m : DBViewMut T)
    (p : T → Bool) :
    (m.select_where_mut p).entries = m.entries.filter p
    ∧ (m.select_where_mut p).entries.Sublist m.entries
    ∧ (∀ x ∈ (m.select_where_mut p).entries, p x = true) := by
  refine ⟨rfl, List.filter_sublist _, ?_⟩
  intro x hx
  exact List.of_mem_filter hx

/-- C5: `as_view` is `select_where` with the always-true predicate and
`as_view_mut` is `select_where_mut` with the always-true predicate; both
select every record, so their lengths equal the store's length. -/
theorem C5_as_view_trivial_selection {T : Type} (S : DB T) :
    S.as_view = S.select_where (fun _ => true)
    ∧ S.as_view_mut = S.select_where_mut (fun _ => true)
    ∧ (S.as_view).len = S.len
    ∧ (S.as_view_mut).len = S.len := by
  refine ⟨rfl, rfl, ?_, ?_⟩ <;>
    simp [DB.as_view, DB.as_view_mut, DB.select_where, DB.select_where_mut,
      DBView.len, DBViewMut.len, DB.len, filter_true_eq_self]

/-- C6: view narrowing is non-destructive: in the state-passing embedding of
`v.select_where(p)`, the receiver state after the call is `v` itself, so its
length and selected sequence equal their pre-call values and the view remains
usable. -/
theorem C6_select_where_nondestructive {T : Type} (v : DBView T)
    (p : T → Bool) :
    (v.select_where_call p).1 = v
    ∧ (v.select_where_call p).1.len = v.len
    ∧ (v.select_where_call p).1.entries = v.entries := by
  exact ⟨rfl, rfl, rfl⟩

/-- C7: `filter_two a b p` returns exactly the pair
`(a.select_where p, b.select_where p)`, element for element, for any two
views. -/
theorem C7_filter_two_is_pair_of_select_where {T : Type} (a b : DBView T)
    (p : T → Bool) :
    filter_two a b p = (a.select_where p, b.select_where p)
    ∧ (filter_two a b p).1.entries = (a.select_where p).entries
    ∧ (filter_two a b p).2.entries = (b.select_where p).entries := by
  exact ⟨rfl, rfl, rfl⟩

/-- C8: selection does not mutate the store: in the state-passing embeddings
of `S.select_where(p)` and `S.select_where_mut(p)`, the store state after the
call is `S` itself, so its record sequence and length equal their pre-call
values. -/
theorem C8_selection_does_not_mutate_store {T : Type} (S : DB T)
    (p : T → Bool) :
    (S.select_where_call p).1 = S
    ∧ (S.select_where_call p).1.data = S.data
    ∧ (S.select_where_call p).1.len = S.len
    ∧ (S.select_where_mut_call p).1 = S
    ∧ (S.select_where_mut_call p).1.data = S.data
    ∧ (S.select_where_mut_call p).1.len = S.len := by
  exact ⟨rfl, rfl, rfl, rfl, rfl, rfl⟩

/-- C9: `filter_one v p` returns exactly the same view as
`v.select_where p`. -/
theorem C9_filter_one_is_select_where {T : Type} (v : DBView T)
    (p : T → Bool) :
    filter_one v p = v.select_where p := by
  rfl

/-- C10: view narrowing is idempotent: filtering a view by `p` twice yields
the same view (hence the same selected sequence and length) as filtering
once. -/
theorem C10_select_where_idempotent {T : Type} (v : DBView T)
    (p : T → Bool) :
    (v.select_where p).select_where p = v.select_where p := by
  show (⟨(v.entries.filter p).filter p⟩ : DBView T) = ⟨v.entries.filter p⟩
  rw [filter_filter_eq_filter_and]
  have hp : (fun x : T => p x && p x) = p := by
    funext x
    exact Bool.and_self (p x)
  rw [hp]
